import Mathlib

/-!
Shallow embedding of the sqlite-rust storage core: `src/page.rs` (the raw
page buffer) and `src/table.rs` (the table of pages and the row codec).
Bytes are modelled as `Nat` values (< 256 where it matters), buffers as
`List Nat`, `usize` arithmetic as `Nat` with explicit panics for the
operations that panic in Rust (overflowing subtraction, division by zero,
failed `unwrap`, out-of-bounds slicing).
-/

deriving instance DecidableEq for Except

namespace SqliteRust

/-- `mem::size_of::<usize>()` on the 64-bit targets the crate builds for. -/
def USIZE_BYTES : Nat := 8

/-- `isize::MAX` on a 64-bit target, used by `Layout::from_size_align`. -/
def ISIZE_MAX : Nat := 2 ^ 63 - 1

/-- Little-endian byte encoding of `n` on `k` bytes: `usize::to_le_bytes`
(with `k = 8`). -/
def natToLE : Nat → Nat → List Nat
  | 0, _ => []
  | k + 1, n => n % 256 :: natToLE k (n / 256)

/-- Little-endian byte decoding: `usize::from_le_bytes`. -/
def natFromLE : List Nat → Nat
  | [] => 0
  | b :: rest => b + 256 * natFromLE rest

/-- The ways the embedded code can panic (Rust `panic!`, arithmetic
underflow, division by zero, a failed `unwrap`). -/
inductive PanicKind where
  | SliceTooLarge
  | SizeMismatch
  | RowTooBig
  | DivByZero
  | MissingPage
  | AllocUnwrap
  | Underflow
  deriving DecidableEq, Repr

/-- `page.rs`: `enum PageAllocationError`. -/
inductive PageAllocationError where
  | LayoutError
  | MemoryAllocationError
  deriving DecidableEq, Repr

/-- `page.rs`: `struct Page` — the heap buffer, as its byte contents. -/
structure Page where
  buffer : List Nat
  deriving DecidableEq, Repr

/-- `std::alloc::Layout::from_size_align(size, 8)`, per the Rust standard
library: with a power-of-two alignment it fails exactly when `size`,
rounded up to the nearest multiple of the alignment, overflows `isize`
(`size > isize::MAX - 7` for alignment 8). In particular size 0 is a
valid layout. Returns the validated size. -/
def from_size_align_8 (size : Nat) : Except PageAllocationError Nat :=
  if size > ISIZE_MAX - 7 then .error .LayoutError else .ok size

/-- `page.rs`: `Page::alloc_zeroed`. Builds the layout, then asks the
global allocator for zeroed memory. The glibc allocator the crate runs on
returns a fresh non-null pointer even for a zero-size request, so the
allocation itself is modelled as always succeeding. -/
def Page.alloc_zeroed (size : Nat) : Except PageAllocationError Page :=
  match from_size_align_8 size with
  | .error e => .error e
  | .ok s => .ok ⟨List.replicate s 0⟩

/-- `page.rs`: `Page::size` — `self.layout.size()`. -/
def Page.size (p : Page) : Nat := p.buffer.length

/-- `page.rs`: `Page::copy_from_slice(loc, src)`. After the bounds check
it runs `ptr::copy_nonoverlapping(src.as_ptr(), self.buffer, src.len())`,
whose destination is the start of the buffer — the bytes land at offset 0
whatever `loc` is. -/
def Page.copy_from_slice (p : Page) (loc : Nat) (src : List Nat) :
    Except PanicKind Page :=
  if src.length + loc > p.size then .error .SliceTooLarge
  else .ok ⟨src ++ p.buffer.drop src.length⟩

/-- `page.rs`: `Page::read_from_index(loc, count)`. -/
def Page.read_from_index (p : Page) (loc count : Nat) : Option (List Nat) :=
  if count = 0 then none
  else if loc + count > p.size then none
  else some ((p.buffer.drop loc).take count)

/-- `table.rs`: `enum SerialiseError`. -/
inductive SerialiseError where
  | NoContents
  | StringWriteError
  | StringReadError
  | BufferLenError
  deriving DecidableEq, Repr

/-- `table.rs`: `struct Row`. `username`/`email` hold the UTF-8 bytes of
the Rust `String`s. -/
structure Row where
  id : Option Nat
  username : List Nat
  email : List Nat
  max_string_len : Nat
  deriving DecidableEq, Repr

/-- A continuation byte `0x80..=0xBF`. -/
def isCont (b : Nat) : Bool := 128 ≤ b && b < 192

/-- `str::from_utf8` validity, per the UTF-8 specification the Rust
standard library implements (shortest-form encodings, no surrogates,
code points at most `U+10FFFF`). -/
def isValidUTF8 : List Nat → Bool
  | [] => true
  | b :: rest =>
    if b < 128 then isValidUTF8 rest
    else if 194 ≤ b && b ≤ 223 then
      match rest with
      | c1 :: rest2 => isCont c1 && isValidUTF8 rest2
      | [] => false
    else if b = 224 then
      match rest with
      | c1 :: c2 :: rest2 =>
        (160 ≤ c1 && c1 < 192) && isCont c2 && isValidUTF8 rest2
      | _ => false
    else if 225 ≤ b && b ≤ 236 then
      match rest with
      | c1 :: c2 :: rest2 => isCont c1 && isCont c2 && isValidUTF8 rest2
      | _ => false
    else if b = 237 then
      match rest with
      | c1 :: c2 :: rest2 =>
        (128 ≤ c1 && c1 < 160) && isCont c2 && isValidUTF8 rest2
      | _ => false
    else if 238 ≤ b && b ≤ 239 then
      match rest with
      | c1 :: c2 :: rest2 => isCont c1 && isCont c2 && isValidUTF8 rest2
      | _ => false
    else if b = 240 then
      match rest with
      | c1 :: c2 :: c3 :: rest2 =>
        (144 ≤ c1 && c1 < 192) && isCont c2 && isCont c3 && isValidUTF8 rest2
      | _ => false
    else if 241 ≤ b && b ≤ 243 then
      match rest with
      | c1 :: c2 :: c3 :: rest2 =>
        isCont c1 && isCont c2 && isCont c3 && isValidUTF8 rest2
      | _ => false
    else if b = 244 then
      match rest with
      | c1 :: c2 :: c3 :: rest2 =>
        (128 ≤ c1 && c1 < 144) && isCont c2 && isCont c3 && isValidUTF8 rest2
      | _ => false
    else false

/-- Writing `src` over `buf` starting at `loc`: Rust's
`buf[loc..loc+src.len()].copy_from_slice(src)` (the standard-library
slice method, which copies in place at the given range). -/
def writeBytes (buf : List Nat) (loc : Nat) (src : List Nat) : List Nat :=
  buf.take loc ++ src ++ buf.drop (loc + src.length)

/-- `table.rs`: `Row::serialise`. The three slice writes run inside
`panic::catch_unwind`; an out-of-range slice index panics and the panic
is mapped to `Err(StringWriteError)`. The id slice `[2m..2m+8]` is the
exact tail of the buffer and never panics. -/
def Row.serialise (r : Row) : Except SerialiseError (List Nat) :=
  match r.id with
  | none => .error .NoContents
  | some id =>
    let bufferLen := r.max_string_len * 2 + USIZE_BYTES
    let buffer := List.replicate bufferLen 0
    if r.username.length > bufferLen then .error .StringWriteError
    else
      let b1 := writeBytes buffer 0 r.username
      if r.max_string_len + r.email.length > bufferLen then
        .error .StringWriteError
      else
        let b2 := writeBytes b1 r.max_string_len r.email
        let b3 := writeBytes b2 (r.max_string_len * 2) (natToLE USIZE_BYTES id)
        .ok b3

/-- `table.rs`: `find_first_zero` — index of the first zero byte, or
`none` when every byte is non-zero. -/
def find_first_zero : List Nat → Option Nat
  | [] => none
  | b :: rest =>
    if b = 0 then some 0 else (find_first_zero rest).map (· + 1)

/-- `table.rs`: the nested `extract_string` inside `Row::deserialise`:
find the first zero byte, then validate the prefix as UTF-8. -/
def extract_string (buffer : List Nat) : Except SerialiseError (List Nat) :=
  match find_first_zero buffer with
  | none => .error .StringReadError
  | some string_len =>
    if isValidUTF8 (buffer.take string_len) then .ok (buffer.take string_len)
    else .error .StringReadError

/-- `table.rs`: `Row::deserialise`. -/
def Row.deserialise (serial : List Nat) (max_string_len : Nat) :
    Except SerialiseError Row :=
  if serial.length ≠ max_string_len * 2 + USIZE_BYTES then
    .error .BufferLenError
  else
    match extract_string (serial.take max_string_len) with
    | .error e => .error e
    | .ok username =>
      match extract_string
          ((serial.drop max_string_len).take max_string_len) with
      | .error e => .error e
      | .ok email =>
        .ok ⟨some (natFromLE (serial.drop (max_string_len * 2))), username,
          email, max_string_len⟩

/-- `table.rs`: `struct Table`. -/
structure Table where
  buffer : List Page
  page_size : Nat
  num_rows : Nat
  row_size : Option Nat
  max_string_len : Option Nat
  deriving DecidableEq, Repr

/-- `table.rs`: `Table::build`. -/
def Table.build (page_size : Nat) : Option Table :=
  if page_size = 0 then none
  else some ⟨[], page_size, 0, none, none⟩

/-- `table.rs`: `Table::len`. -/
def Table.len (t : Table) : Nat := t.num_rows

/-- The body of `Table::push` after the `row_size` match: `t` already has
`row_size = Some row_size`. Divisions panic in Rust when the divisor is
zero; the `usize` subtraction at the write-point computation panics on
underflow; the `unwrap`s panic on `None`/`Err`. -/
def pushCore (t : Table) (row_size : Nat) (contents : List Nat) :
    Except PanicKind Table :=
  if row_size = 0 then .error .DivByZero
  else
    let row_num := t.num_rows + 1
    let rows_per_page := t.page_size / row_size
    if rows_per_page = 0 then .error .DivByZero
    else
      let page_num := row_num / rows_per_page
      match (if page_num ≥ t.buffer.length
          then (Page.alloc_zeroed t.page_size).map (fun p => t.buffer ++ [p])
          else .ok t.buffer) with
      | .error _ => .error .AllocUnwrap
      | .ok buf =>
        match buf.get? page_num with
        | none => .error .MissingPage
        | some page =>
          if t.num_rows < rows_per_page * page_num then .error .Underflow
          else
            match page.copy_from_slice
                ((t.num_rows - rows_per_page * page_num) * row_size)
                contents with
            | .error e => .error e
            | .ok page2 =>
              .ok { t with buffer := buf.set page_num page2,
                           num_rows := row_num }

/-- `table.rs`: `Table::push`. -/
def Table.push (t : Table) (contents : List Nat) : Except PanicKind Table :=
  match t.row_size with
  | some size =>
    if contents.length ≠ size then .error .SizeMismatch
    else pushCore t size contents
  | none =>
    if contents.length > t.page_size then .error .RowTooBig
    else pushCore { t with row_size := some contents.length }
      contents.length contents

/-- `table.rs`: `Table::get`. The `?` on `self.row_size` returns `None`;
the divisions panic on a zero divisor; the `unwrap` on the page lookup
panics on `None`; a `deserialise` failure is folded into `None` by
`.ok()`. -/
def Table.get (t : Table) (row_id : Nat) (max_string_len : Nat) :
    Except PanicKind (Option Row) :=
  if row_id ≥ t.num_rows then .ok none
  else
    match t.row_size with
    | none => .ok none
    | some row_size =>
      if row_size = 0 then .error .DivByZero
      else
        let rows_per_page := t.page_size / row_size
        if rows_per_page = 0 then .error .DivByZero
        else
          let page_num := row_id / rows_per_page
          let read_point := (row_id - rows_per_page * page_num) * row_size
          match t.buffer.get? page_num with
          | none => .error .MissingPage
          | some page =>
            match page.read_from_index read_point row_size with
            | none => .ok none
            | some row_buffer =>
              .ok (Row.deserialise row_buffer max_string_len).toOption

/-- Fold a list of rows through `Table.push`. -/
def pushAll (t : Table) (rows : List (List Nat)) : Except PanicKind Table :=
  rows.foldlM Table.push t

/-- A concrete row with `max_string_len = 100`: id `n`, one-byte
username and email `[b]`. -/
def demoRow (n b : Nat) : Row := ⟨some n, [b], [b], 100⟩

/-- The 208-byte serialisation of `demoRow n b`. -/
def demoBytes (n b : Nat) : List Nat :=
  [b] ++ List.replicate 99 0 ++ [b] ++ List.replicate 99 0 ++ natToLE 8 n

/-- A two-page table, `page_size = 1024`, `row_size = 208`, holding
`demoRow 3 51` at page 0 offset 624 and `demoRow 4 52` at page 1
offset 0. -/
def demoTable : Table :=
  ⟨[⟨List.replicate 624 0 ++ demoBytes 3 51 ++ List.replicate 192 0⟩,
    ⟨demoBytes 4 52 ++ List.replicate 816 0⟩], 1024, 5, some 208, none⟩

end SqliteRust

namespace SqliteRust

example : natFromLE (natToLE 8 123456789) = 123456789 := by decide

example : find_first_zero [1, 2, 0, 3] = some 2 := by decide

example : isValidUTF8 [104, 105] = true := by decide

example :
    Row.serialise ⟨some 3, [104], [101], 2⟩ =
      .ok [104, 0, 101, 0, 3, 0, 0, 0, 0, 0, 0, 0] := by decide

example :
    Row.deserialise [104, 0, 101, 0, 3, 0, 0, 0, 0, 0, 0, 0] 2 =
      .ok ⟨some 3, [104], [101], 2⟩ := by decide

set_option maxRecDepth 10000

theorem natToLE_length (k n : Nat) : (natToLE k n).length = k := by
  induction k generalizing n with
  | zero => rfl
  | succ k ih => simp [natToLE, ih]

theorem natFromLE_natToLE (k n : Nat) :
    natFromLE (natToLE k n) = n % 256 ^ k := by
  induction k generalizing n with
  | zero => simp [natToLE, natFromLE, Nat.mod_one]
  | succ k ih =>
    rw [natToLE, natFromLE, ih, pow_succ, mul_comm (256 ^ k) 256, Nat.mod_mul]

theorem find_first_zero_append (u : List Nat) (k : Nat)
    (h : 0 ∉ u) (hk : 0 < k) :
    find_first_zero (u ++ List.replicate k 0) = some u.length := by
  induction u with
  | nil =>
    cases k with
    | zero => omega
    | succ k => simp [find_first_zero, List.replicate]
  | cons b rest ih =>
    have hb : b ≠ 0 := fun hb => h (by simp [hb])
    have hrest : 0 ∉ rest := fun hm => h (by simp [hm])
    simp [find_first_zero, hb, ih hrest]

theorem extract_string_padded (u : List Nat) (k : Nat)
    (hz : 0 ∉ u) (hk : 0 < k) (hv : isValidUTF8 u = true) :
    extract_string (u ++ List.replicate k 0) = .ok u := by
  unfold extract_string
  rw [find_first_zero_append u k hz hk]
  dsimp only
  rw [List.take_left, hv]
  simp

theorem take_append_big {α : Type} (l₁ l₂ : List α) (k : Nat)
    (h : l₁.length ≤ k) :
    (l₁ ++ l₂).take k = l₁ ++ l₂.take (k - l₁.length) := by
  rw [List.take_append_eq_append_take, List.take_of_length_le h]

theorem drop_append_big {α : Type} (l₁ l₂ : List α) (k : Nat)
    (h : l₁.length ≤ k) :
    (l₁ ++ l₂).drop k = l₂.drop (k - l₁.length) := by
  rw [List.drop_append_eq_append_drop, List.drop_eq_nil_of_le h,
    List.nil_append]

theorem serialise_eq (r : Row) (n : Nat) (hid : r.id = some n)
    (hu : r.username.length ≤ r.max_string_len)
    (he : r.email.length ≤ r.max_string_len) :
    r.serialise = .ok (r.username
      ++ (List.replicate (r.max_string_len - r.username.length) 0
      ++ (r.email
      ++ (List.replicate (r.max_string_len - r.email.length) 0
      ++ natToLE 8 n)))) := by
  obtain ⟨rid, u, e, m⟩ := r
  dsimp only at hid hu he ⊢
  subst hid
  unfold Row.serialise USIZE_BYTES
  dsimp only
  rw [if_neg (by omega), if_neg (by omega)]
  have hb1 : writeBytes (List.replicate (m * 2 + 8) 0) 0 u
      = u ++ List.replicate (m * 2 + 8 - u.length) 0 := by
    simp [writeBytes, List.drop_replicate]
  have hb2 : writeBytes (u ++ List.replicate (m * 2 + 8 - u.length) 0) m e
      = u ++ (List.replicate (m - u.length) 0 ++ (e
          ++ List.replicate (m + 8 - e.length) 0)) := by
    unfold writeBytes
    rw [take_append_big _ _ _ hu, List.take_replicate,
      drop_append_big _ _ _ (show u.length ≤ m + e.length by omega),
      List.drop_replicate]
    have e1 : (m - u.length) ⊓ (m * 2 + 8 - u.length) = m - u.length := by
      omega
    have e2 : m * 2 + 8 - u.length - (m + e.length - u.length)
        = m + 8 - e.length := by omega
    rw [e1, e2]
    simp [List.append_assoc]
  have hb3 : writeBytes (u ++ (List.replicate (m - u.length) 0 ++ (e
        ++ List.replicate (m + 8 - e.length) 0))) (m * 2) (natToLE 8 n)
      = u ++ (List.replicate (m - u.length) 0 ++ (e
          ++ (List.replicate (m - e.length) 0 ++ natToLE 8 n))) := by
    unfold writeBytes
    rw [natToLE_length]
    rw [take_append_big _ _ _ (show u.length ≤ m * 2 by omega)]
    rw [take_append_big _ _ _
      (show (List.replicate (m - u.length) (0 : Nat)).length
          ≤ m * 2 - u.length by simp only [List.length_replicate]; omega)]
    simp only [List.length_replicate]
    rw [take_append_big _ _ _
      (show e.length ≤ m * 2 - u.length - (m - u.length) by omega)]
    rw [List.take_replicate]
    rw [drop_append_big _ _ _ (show u.length ≤ m * 2 + 8 by omega)]
    rw [drop_append_big _ _ _
      (show (List.replicate (m - u.length) (0 : Nat)).length
          ≤ m * 2 + 8 - u.length by simp only [List.length_replicate]; omega)]
    simp only [List.length_replicate]
    rw [drop_append_big _ _ _
      (show e.length ≤ m * 2 + 8 - u.length - (m - u.length) by omega)]
    rw [List.drop_replicate]
    have e1 : (m * 2 - u.length - (m - u.length) - e.length)
        ⊓ (m + 8 - e.length) = m - e.length := by omega
    have e2 : m + 8 - e.length - (m * 2 + 8 - u.length - (m - u.length)
        - e.length) = 0 := by omega
    rw [e1, e2]
    simp [List.append_assoc]
  rw [hb1, hb2, hb3]

theorem deserialise_padded (u e : List Nat) (m n : Nat)
    (hu : u.length < m) (he : e.length < m)
    (hu0 : 0 ∉ u) (he0 : 0 ∉ e)
    (huv : isValidUTF8 u = true) (hev : isValidUTF8 e = true) :
    Row.deserialise (u ++ (List.replicate (m - u.length) 0 ++ (e
      ++ (List.replicate (m - e.length) 0 ++ natToLE 8 n)))) m
      = .ok ⟨some (n % 2 ^ 64), u, e, m⟩ := by
  have hlen : (u ++ (List.replicate (m - u.length) 0 ++ (e
      ++ (List.replicate (m - e.length) 0 ++ natToLE 8 n)))).length
      = m * 2 + 8 := by
    simp [List.length_append, List.length_replicate, natToLE_length]
    omega
  have ht1 : (u ++ (List.replicate (m - u.length) 0 ++ (e
      ++ (List.replicate (m - e.length) 0 ++ natToLE 8 n)))).take m
      = u ++ List.replicate (m - u.length) 0 := by
    rw [take_append_big _ _ _ (le_of_lt hu)]
    rw [take_append_big _ _ _
      (show (List.replicate (m - u.length) (0 : Nat)).length
        ≤ m - u.length by simp)]
    simp
  have ht2 : ((u ++ (List.replicate (m - u.length) 0 ++ (e
      ++ (List.replicate (m - e.length) 0 ++ natToLE 8 n)))).drop m).take m
      = e ++ List.replicate (m - e.length) 0 := by
    rw [drop_append_big _ _ _ (le_of_lt hu)]
    rw [drop_append_big _ _ _
      (show (List.replicate (m - u.length) (0 : Nat)).length
        ≤ m - u.length by simp)]
    simp only [List.length_replicate, Nat.sub_self, List.drop_zero]
    rw [take_append_big _ _ _ (le_of_lt he)]
    rw [take_append_big _ _ _
      (show (List.replicate (m - e.length) (0 : Nat)).length
        ≤ m - e.length by simp)]
    simp
  have ht3 : (u ++ (List.replicate (m - u.length) 0 ++ (e
      ++ (List.replicate (m - e.length) 0 ++ natToLE 8 n)))).drop (m * 2)
      = natToLE 8 n := by
    rw [drop_append_big _ _ _ (show u.length ≤ m * 2 by omega)]
    rw [drop_append_big _ _ _
      (show (List.replicate (m - u.length) (0 : Nat)).length
        ≤ m * 2 - u.length by simp; omega)]
    simp only [List.length_replicate]
    rw [drop_append_big _ _ _
      (show e.length ≤ m * 2 - u.length - (m - u.length) by omega)]
    rw [drop_append_big _ _ _
      (show (List.replicate (m - e.length) (0 : Nat)).length
        ≤ m * 2 - u.length - (m - u.length) - e.length by simp; omega)]
    simp only [List.length_replicate]
    have e0 : m * 2 - u.length - (m - u.length) - e.length - (m - e.length)
        = 0 := by omega
    rw [e0, List.drop_zero]
  unfold Row.deserialise USIZE_BYTES
  rw [hlen, if_neg (by omega)]
  rw [ht1, ht2, ht3]
  rw [extract_string_padded u (m - u.length) hu0 (by omega) huv]
  rw [extract_string_padded e (m - e.length) he0 (by omega) hev]
  show Except.ok _ = _
  rw [natFromLE_natToLE]
  norm_num

/-- C3: for any Row with `id = Some n` (a `usize`, so `n < 2^64`) whose
username and email are valid UTF-8 of byte length strictly below
`max_string_len` with no zero byte, `deserialise (serialise row)
max_string_len` succeeds and returns the row unchanged. -/
theorem c3_serialise_round_trip (r : Row) (n : Nat) (hid : r.id = some n)
    (hn : n < 2 ^ 64)
    (hu : r.username.length < r.max_string_len)
    (he : r.email.length < r.max_string_len)
    (hu0 : 0 ∉ r.username) (he0 : 0 ∉ r.email)
    (huv : isValidUTF8 r.username = true)
    (hev : isValidUTF8 r.email = true) :
    r.serialise.bind (fun bytes => Row.deserialise bytes r.max_string_len)
      = .ok r := by
  obtain ⟨rid, u, e, m⟩ := r
  dsimp only at hid hu he hu0 he0 huv hev ⊢
  subst hid
  rw [serialise_eq ⟨some n, u, e, m⟩ n rfl (le_of_lt hu) (le_of_lt he)]
  show Row.deserialise _ m = _
  rw [deserialise_padded u e m n hu he hu0 he0 huv hev]
  rw [Nat.mod_eq_of_lt hn]

/-- C3 witness: a concrete instance of the round trip, with
`max_string_len = 2`, id 7, username `"h"`, email `"e"`. -/
theorem c3_serialise_round_trip_witness :
    (Row.serialise ⟨some 7, [104], [101], 2⟩).bind
        (fun bytes => Row.deserialise bytes 2)
      = .ok ⟨some 7, [104], [101], 2⟩ :=
  c3_serialise_round_trip ⟨some 7, [104], [101], 2⟩ 7 rfl (by decide)
    (by decide) (by decide) (by decide) (by decide) (by decide) (by decide)

/-- C1: the claim says both `push` and `get` map row index `i` to
`page_index = i / rows_per_page`, `offset = (i mod rows_per_page) *
row_size`, so with `page_size = 1024` and 208-byte rows, row index 3 is
stored at page 0 offset 624 and row index 4 at page 1 offset 0. The
code's `get` follows that formula (last two conjuncts: a table holding
`demoRow 3 51` at page 0 offset 624 and `demoRow 4 52` at page 1 offset
0 returns them at indices 3 and 4), but `push` does not: after three
successful 208-byte pushes (`len = 3`), the push of row index 3 computes
`page_num = (3 + 1) / 4 = 1` and underflows at
`num_rows - rows_per_page * page_num = 3 - 4` instead of storing the row
at page 0 offset 624. -/
theorem c1_push_addressing_diverges :
    ((Table.build 1024).map fun t =>
        (pushAll t (List.replicate 3 (List.replicate 208 1))).map Table.len) =
      some (Except.ok 3)
    ∧ ((Table.build 1024).map fun t =>
        pushAll t (List.replicate 4 (List.replicate 208 1))) =
      some (Except.error PanicKind.Underflow)
    ∧ Table.get demoTable 3 100 = .ok (some (demoRow 3 51))
    ∧ Table.get demoTable 4 100 = .ok (some (demoRow 4 52)) := by decide

/-- C2: the claim says `write(offset, bytes)` copies `bytes` into the
buffer starting at index `offset`. The code copies to the start of the
buffer instead, ignoring `loc`: writing `[5]` at offset 1 of a zeroed
2-byte page leaves the byte at index 1 equal to 0 and puts 5 at index 0. -/
theorem c2_copy_ignores_offset :
    Page.copy_from_slice ⟨[0, 0]⟩ 1 [5] = .ok ⟨[5, 0]⟩
    ∧ (Page.copy_from_slice ⟨[0, 0]⟩ 1 [5]).toOption.map
        (fun p => p.buffer.get? 1) = some (some 0) := by decide

/-- C6: the claim says allocation with size 0 fails with a
`LayoutError`. In the Rust standard library a zero-size layout is valid
(`Layout::from_size_align(0, 8)` succeeds), so the code never produces
that error for size 0 and instead performs a zero-size allocation
(undefined behaviour per the allocator contract; the glibc allocator
returns a non-null pointer, yielding a zero-size `Page`). The size-8
half of the claim does hold. -/
theorem c6_zero_alloc_no_layout_error :
    from_size_align_8 0 = .ok 0
    ∧ Page.alloc_zeroed 0 = .ok ⟨[]⟩
    ∧ Page.alloc_zeroed 0 ≠ .error .LayoutError
    ∧ (Page.alloc_zeroed 8).map Page.size = .ok 8 := by decide

/-- C4 counterexample: the claim quantifies over rows whose encoded
width is at most `page_size`. With `page_size = 208` and
`max_string_len = 100` the encoded width is exactly 208, yet the very
first `push` of the serialised row panics on the unwrap of a missing
page (`rows_per_page = 1`, `page_num = (0 + 1) / 1 = 1`, only one page
allocated), so `get(0)` can never return the row. -/
theorem c4_full_page_row_push_panics :
    Row.serialise ⟨some 0, [], [], 100⟩ = .ok (List.replicate 208 0)
    ∧ ((Table.build 208).map fun t => t.push (List.replicate 208 0)) =
      some (Except.error PanicKind.MissingPage) := by decide

/-- C5 counterexample: the claim says an oversized string field makes
`serialise` abort the process without returning an error value. With
`max_string_len = 1` and a 2-byte username, `serialise` instead returns
normally with `Ok`: the username is written whole past its 1-byte field
into the email field's bytes. -/
theorem c5_oversized_field_returns_ok :
    Row.serialise ⟨some 0, [104, 105], [], 1⟩ =
      .ok [104, 105, 0, 0, 0, 0, 0, 0, 0, 0] := by decide

/-- C9 counterexample: the claim says every push of a row index `i` with
`(i + 1)` a multiple of `rows_per_page` fails through unsigned underflow
in the write-offset computation, in particular the very first push when
`rows_per_page = 1`. That first push does fail, but through the unwrap
of a missing page (`page_num = 1` while only page 0 was just allocated),
before the offset computation is reached — not through underflow. -/
theorem c9_first_push_fails_by_unwrap :
    ((Table.build 8).map fun t => t.push (List.replicate 8 0)) =
      some (Except.error PanicKind.MissingPage)
    ∧ ((Table.build 8).map fun t => t.push (List.replicate 8 0)) ≠
      some (Except.error PanicKind.Underflow) := by decide

end SqliteRust

namespace SqliteRust

theorem extract_string_error_only (b : List Nat) (err : SerialiseError)
    (h : extract_string b = .error err) : err = .StringReadError := by
  unfold extract_string at h
  split at h
  · cases h; rfl
  · split at h
    · cases h
    · cases h; rfl

/-- C10: every Row a successful `deserialise` returns has
`id = Some` of the little-endian integer decoded from the trailing
8 bytes, so `serialise` applied to it can never fail with `NoContents`. -/
theorem c10_deserialised_id_always_set (bytes : List Nat) (m : Nat) (r : Row)
    (h : Row.deserialise bytes m = .ok r) :
    r.id = some (natFromLE (bytes.drop (m * 2)))
    ∧ ∀ err, r.serialise = .error err → err ≠ .NoContents := by
  unfold Row.deserialise at h
  split at h
  · cases h
  · split at h
    · cases h
    · split at h
      · cases h
      · cases h
        refine ⟨rfl, ?_⟩
        intro err hserr
        unfold Row.serialise at hserr
        dsimp only at hserr
        split at hserr
        · cases hserr; simp
        · split at hserr
          · cases hserr; simp
          · cases hserr

end SqliteRust

namespace SqliteRust

theorem extract_string_eq_error_iff (b : List Nat) :
    extract_string b = .error .StringReadError ↔
      (find_first_zero b = none
        ∨ ∃ k, find_first_zero b = some k
            ∧ isValidUTF8 (b.take k) = false) := by
  unfold extract_string
  cases hz : find_first_zero b with
  | none => simp
  | some k =>
    dsimp only
    by_cases hv : isValidUTF8 (b.take k) = true
    · rw [if_pos hv]
      simp [hv]
    · rw [if_neg hv]
      simp only [Bool.not_eq_true] at hv
      simp [hv]

/-- C7: `deserialise` fails with `BufferLenError` exactly when the input
length differs from `2 * max_string_len + 8`; when the length matches,
it fails with `StringReadError` whenever a text field has no zero byte
in its `max_string_len`-byte slice or the bytes before the terminator
are not valid UTF-8; and scanning an all-nonzero 20-byte buffer for a
terminator finds none. -/
theorem c7_deserialise_error_conditions (m : Nat) :
    (∀ bytes : List Nat,
        Row.deserialise bytes m = .error .BufferLenError ↔
          bytes.length ≠ m * 2 + 8)
    ∧ (∀ bytes : List Nat, bytes.length = m * 2 + 8 →
        (find_first_zero (bytes.take m) = none
          ∨ (∃ k, find_first_zero (bytes.take m) = some k
              ∧ isValidUTF8 ((bytes.take m).take k) = false)
          ∨ find_first_zero ((bytes.drop m).take m) = none
          ∨ (∃ k, find_first_zero ((bytes.drop m).take m) = some k
              ∧ isValidUTF8 (((bytes.drop m).take m).take k) = false)) →
        Row.deserialise bytes m = .error .StringReadError)
    ∧ find_first_zero (List.replicate 20 1) = none := by
  refine ⟨?_, ?_, by decide⟩
  · intro bytes
    constructor
    · intro h
      by_contra hlen
      unfold Row.deserialise USIZE_BYTES at h
      rw [if_neg (by omega)] at h
      split at h
      · rename_i e1 hext1
        cases h
        exact absurd (extract_string_error_only _ _ hext1) (by decide)
      · split at h
        · rename_i e2 hext2
          cases h
          exact absurd (extract_string_error_only _ _ hext2) (by decide)
        · cases h
    · intro hlen
      unfold Row.deserialise USIZE_BYTES
      rw [if_pos (by omega)]
  · intro bytes hlen hbad
    unfold Row.deserialise USIZE_BYTES
    rw [if_neg (by omega)]
    cases hext1 : extract_string (bytes.take m) with
    | error e1 =>
      have he1 := extract_string_error_only _ _ hext1
      subst he1
      rfl
    | ok u =>
      dsimp only
      have hgood1 : ¬(find_first_zero (bytes.take m) = none
          ∨ ∃ k, find_first_zero (bytes.take m) = some k
            ∧ isValidUTF8 ((bytes.take m).take k) = false) := by
        intro hc
        rw [← extract_string_eq_error_iff] at hc
        rw [hext1] at hc
        cases hc
      have hbad2 : find_first_zero ((bytes.drop m).take m) = none
          ∨ ∃ k, find_first_zero ((bytes.drop m).take m) = some k
            ∧ isValidUTF8 (((bytes.drop m).take m).take k) = false := by
        rcases hbad with h | h | h | h
        · exact absurd (Or.inl h) hgood1
        · exact absurd (Or.inr h) hgood1
        · exact Or.inl h
        · exact Or.inr h
      rw [(extract_string_eq_error_iff _).mpr hbad2]

end SqliteRust

namespace SqliteRust

theorem pushCore_ok_fields (t : Table) (s : Nat) (c : List Nat) (t' : Table)
    (h : pushCore t s c = .ok t') :
    t'.page_size = t.page_size ∧ t'.row_size = t.row_size := by
  simp only [pushCore] at h
  split at h
  · cases h
  · split at h
    · cases h
    · split at h
      · cases h
      · split at h
        · cases h
        · split at h
          · cases h
          · split at h
            · cases h
            · cases h
              exact ⟨rfl, rfl⟩

/-- C8: a successful `push` on an unbound table binds `row_size` to the
pushed length, which cannot exceed `page_size`; a successful `push` on a
bound table requires the contents length to equal `row_size` exactly and
leaves the binding unchanged; `page_size` never changes. A mismatched
length on a bound table can therefore never be silently accepted. -/
theorem c8_row_size_binding (t t' : Table) (c : List Nat)
    (hpush : t.push c = .ok t') :
    t'.page_size = t.page_size
    ∧ (t.row_size = none →
        t'.row_size = some c.length ∧ c.length ≤ t.page_size)
    ∧ (∀ s, t.row_size = some s → c.length = s ∧ t'.row_size = some s) := by
  unfold Table.push at hpush
  split at hpush
  · rename_i size heq
    split at hpush
    · cases hpush
    · rename_i hcond
      obtain ⟨hps, hrs⟩ := pushCore_ok_fields _ _ _ _ hpush
      refine ⟨hps, ?_, ?_⟩
      · intro hnone
        rw [hnone] at heq
        cases heq
      · intro s hs
        rw [heq] at hs
        cases hs
        exact ⟨by omega, by rw [hrs, heq]⟩
  · rename_i heq
    split at hpush
    · cases hpush
    · rename_i hcond
      obtain ⟨hps, hrs⟩ := pushCore_ok_fields _ _ _ _ hpush
      refine ⟨hps, ?_, ?_⟩
      · intro _
        exact ⟨by rw [hrs], by omega⟩
      · intro s hs
        rw [heq] at hs
        cases hs

/-- C8 witness: pushing an 8-byte row into a fresh table with
`page_size = 16` binds `row_size` to 8. -/
theorem c8_row_size_binding_witness :
    (⟨[⟨List.replicate 16 0⟩], 16, 1, some 8, none⟩ : Table).page_size
        = (⟨[], 16, 0, none, none⟩ : Table).page_size
    ∧ ((⟨[], 16, 0, none, none⟩ : Table).row_size = none →
        (⟨[⟨List.replicate 16 0⟩], 16, 1, some 8, none⟩ : Table).row_size
            = some (List.replicate (8 : Nat) (0 : Nat)).length
          ∧ (List.replicate (8 : Nat) (0 : Nat)).length
            ≤ (⟨[], 16, 0, none, none⟩ : Table).page_size)
    ∧ (∀ s, (⟨[], 16, 0, none, none⟩ : Table).row_size = some s →
        (List.replicate (8 : Nat) (0 : Nat)).length = s
        ∧ (⟨[⟨List.replicate 16 0⟩], 16, 1, some 8, none⟩ : Table).row_size
            = some s) :=
  c8_row_size_binding ⟨[], 16, 0, none, none⟩
    ⟨[⟨List.replicate 16 0⟩], 16, 1, some 8, none⟩
    (List.replicate 8 0) (by decide)

end SqliteRust

namespace SqliteRust

/-- C9 (amended): on a bound table with `rows_per_page = r =
page_size / row_size` and `(num_rows + 1)` a multiple of `r`, a push of
the row with index `num_rows` always terminates abnormally: through
unsigned underflow in the write-offset computation when the computed
page index `(num_rows + 1) / r` does not exceed the allocated pages
(at most one page is allocated on demand), and through the unwrap of a
missing page otherwise — as for the very first push when `r = 1`. -/
theorem c9_boundary_push_panics (t : Table) (s : Nat) (c : List Nat)
    (hrs : t.row_size = some s) (hs : 0 < s)
    (hr : 0 < t.page_size / s)
    (hlen : c.length = s)
    (hmod : (t.num_rows + 1) % (t.page_size / s) = 0)
    (halloc : t.page_size ≤ 2 ^ 63 - 8) :
    ((t.num_rows + 1) / (t.page_size / s) ≤ t.buffer.length →
        t.push c = .error .Underflow)
    ∧ (t.buffer.length < (t.num_rows + 1) / (t.page_size / s) →
        t.push c = .error .MissingPage) := by
  have hmul : t.page_size / s * ((t.num_rows + 1) / (t.page_size / s))
      = t.num_rows + 1 := by
    rw [mul_comm]
    exact Nat.div_mul_cancel (Nat.dvd_of_mod_eq_zero hmod)
  have halloc2 : Page.alloc_zeroed t.page_size
      = .ok ⟨List.replicate t.page_size 0⟩ := by
    unfold Page.alloc_zeroed from_size_align_8 ISIZE_MAX
    rw [if_neg (by omega)]
  unfold Table.push
  rw [hrs]
  dsimp only
  rw [if_neg (show ¬(c.length ≠ s) by omega)]
  simp only [pushCore]
  rw [if_neg (show ¬(s = 0) by omega),
    if_neg (show ¬(t.page_size / s = 0) by omega)]
  constructor
  · intro hle
    rcases Nat.lt_or_ge ((t.num_rows + 1) / (t.page_size / s))
        t.buffer.length with hlt | hge
    · rw [if_neg (show ¬((t.num_rows + 1) / (t.page_size / s)
          ≥ t.buffer.length) by omega)]
      dsimp only
      cases hbg : t.buffer.get? ((t.num_rows + 1) / (t.page_size / s)) with
      | none =>
        rw [List.get?_eq_none] at hbg
        omega
      | some page =>
        dsimp only
        rw [hmul, if_pos (show t.num_rows < t.num_rows + 1 by omega)]
    · rw [if_pos (show (t.num_rows + 1) / (t.page_size / s)
          ≥ t.buffer.length from hge), halloc2]
      simp only [Except.map]
      cases hbg : (t.buffer ++ [(⟨List.replicate t.page_size 0⟩ : Page)]).get?
          ((t.num_rows + 1) / (t.page_size / s)) with
      | none =>
        rw [List.get?_eq_none] at hbg
        simp at hbg
        omega
      | some page =>
        dsimp only
        rw [hmul, if_pos (show t.num_rows < t.num_rows + 1 by omega)]
  · intro hgt
    rw [if_pos (show (t.num_rows + 1) / (t.page_size / s)
        ≥ t.buffer.length by omega), halloc2]
    simp only [Except.map]
    cases hbg : (t.buffer ++ [(⟨List.replicate t.page_size 0⟩ : Page)]).get?
        ((t.num_rows + 1) / (t.page_size / s)) with
    | none => rfl
    | some page =>
      exfalso
      obtain ⟨hlt2, _⟩ := List.get?_eq_some.mp hbg
      simp at hlt2
      omega

/-- C9 witness: the very first push on a fresh table with
`rows_per_page = 1` (`page_size = 8`, 8-byte row) fails on the missing
page. -/
theorem c9_boundary_push_panics_witness :
    (⟨[], 8, 0, some 8, none⟩ : Table).push (List.replicate 8 0)
      = .error PanicKind.MissingPage :=
  (c9_boundary_push_panics ⟨[], 8, 0, some 8, none⟩ 8 (List.replicate 8 0)
    rfl (by decide) (by decide) (by decide) (by decide) (by norm_num)).2
    (by decide)

end SqliteRust

namespace SqliteRust

/-- C5 (amended): with `id` set, an oversized string field never
terminates the process. `serialise` fails — and then only with the
recoverable `StringWriteError`, the caught slice-write panic — exactly
when a field's slice write would leave the whole buffer (username longer
than `2 * max_string_len + 8`, or email write past the buffer end);
otherwise it returns `Ok`, the oversized field written whole past its
`max_string_len` boundary (no truncation). -/
theorem c5_oversized_field_recoverable (r : Row) (n : Nat)
    (hid : r.id = some n) :
    (r.serialise = .error .StringWriteError ↔
      (r.max_string_len * 2 + 8 < r.username.length
        ∨ (r.username.length ≤ r.max_string_len * 2 + 8
            ∧ r.max_string_len * 2 + 8
              < r.max_string_len + r.email.length)))
    ∧ (∀ err, r.serialise = .error err → err = .StringWriteError) := by
  simp only [Row.serialise, USIZE_BYTES, hid]
  constructor
  · by_cases h1 : r.username.length > r.max_string_len * 2 + 8
    · rw [if_pos h1]
      simp only [true_iff]
      omega
    · rw [if_neg h1]
      by_cases h2 : r.max_string_len + r.email.length
          > r.max_string_len * 2 + 8
      · rw [if_pos h2]
        simp only [true_iff]
        omega
      · rw [if_neg h2]
        constructor
        · intro hc
          exact Except.noConfusion hc
        · intro hc
          exfalso
          omega
  · intro err herr
    split at herr
    · cases herr
      rfl
    · split at herr
      · cases herr
        rfl
      · cases herr

/-- C5 amended witness: `max_string_len = 1` with an 11-byte username
(larger than the whole 10-byte buffer) yields `Err(StringWriteError)`. -/
theorem c5_oversized_field_recoverable_witness :
    ((⟨some 0, List.replicate 11 1, [], 1⟩ : Row).serialise
        = .error .StringWriteError ↔
      ((1 : Nat) * 2 + 8 < (List.replicate (11 : Nat) (1 : Nat)).length
        ∨ ((List.replicate (11 : Nat) (1 : Nat)).length ≤ 1 * 2 + 8
            ∧ (1 : Nat) * 2 + 8 < 1 + ([] : List Nat).length)))
    ∧ (∀ err, (⟨some 0, List.replicate 11 1, [], 1⟩ : Row).serialise
        = .error err → err = .StringWriteError) :=
  c5_oversized_field_recoverable ⟨some 0, List.replicate 11 1, [], 1⟩ 0 rfl

end SqliteRust

namespace SqliteRust

theorem pushCore_fresh (ps : Nat) (c : List Nat)
    (hc : 0 < c.length) (h2 : 2 * c.length ≤ ps) (hps : ps ≤ 2 ^ 63 - 8) :
    pushCore ⟨[], ps, 0, some c.length, none⟩ c.length c
      = .ok ⟨[⟨c ++ List.replicate (ps - c.length) 0⟩], ps, 1,
          some c.length, none⟩ := by
  have hrpp : 2 ≤ ps / c.length := (Nat.le_div_iff_mul_le hc).mpr (by omega)
  have halloc2 : Page.alloc_zeroed ps = .ok ⟨List.replicate ps 0⟩ := by
    unfold Page.alloc_zeroed from_size_align_8 ISIZE_MAX
    rw [if_neg (by omega)]
  simp only [pushCore]
  rw [if_neg (show ¬(c.length = 0) by omega)]
  rw [if_neg (show ¬(ps / c.length = 0) by omega)]
  have hpn : (0 + 1) / (ps / c.length) = 0 := Nat.div_eq_of_lt (by omega)
  simp only [hpn]
  rw [if_pos (show (0 : Nat) ≥ ([] : List Page).length by simp), halloc2]
  simp only [Except.map, List.nil_append, List.get?]
  rw [if_neg (show ¬((0 : Nat) < ps / c.length * 0) by omega)]
  simp only [Page.copy_from_slice, Page.size, List.length_replicate,
    Nat.mul_zero, Nat.sub_zero, Nat.zero_mul, Nat.add_zero]
  rw [if_neg (show ¬(c.length > ps) by omega)]
  simp only [List.drop_replicate]
  rfl

theorem get_zero_single (ps : Nat) (c : List Nat) (m : Nat)
    (hc : 0 < c.length) (h2 : 2 * c.length ≤ ps) :
    Table.get ⟨[⟨c ++ List.replicate (ps - c.length) 0⟩], ps, 1,
        some c.length, none⟩ 0 m
      = .ok (Row.deserialise c m).toOption := by
  have hrpp : 2 ≤ ps / c.length := (Nat.le_div_iff_mul_le hc).mpr (by omega)
  simp only [Table.get]
  rw [if_neg (show ¬((0 : Nat) ≥ 1) by omega)]
  rw [if_neg (show ¬(c.length = 0) by omega)]
  rw [if_neg (show ¬(ps / c.length = 0) by omega)]
  simp only [Nat.zero_div, Nat.mul_zero, Nat.sub_zero, Nat.zero_mul,
    List.get?]
  simp only [Page.read_from_index, Page.size, List.length_append,
    List.length_replicate]
  rw [if_neg (show ¬(c.length = 0) by omega)]
  rw [if_neg (show ¬(0 + c.length > c.length + (ps - c.length)) by omega)]
  rw [List.drop_zero, List.take_left]

end SqliteRust

namespace SqliteRust

theorem padded_length (u e : List Nat) (m n : Nat)
    (hu : u.length ≤ m) (he : e.length ≤ m) :
    (u ++ (List.replicate (m - u.length) 0 ++ (e
      ++ (List.replicate (m - e.length) 0 ++ natToLE 8 n)))).length
      = m * 2 + 8 := by
  simp [List.length_append, List.length_replicate, natToLE_length]
  omega

/-- C4 (amended): on a fresh table whose `page_size` holds at least two
encoded rows (`2 * (2 * max_string_len + 8) <= page_size`, so that the
off-by-one page computation of `push` does not fire on row 0), pushing a
serialisable row and then `get 0 max_string_len` returns the row. -/
theorem c4_push_get_round_trip (page_size : Nat) (t0 : Table) (r : Row)
    (n : Nat)
    (hbuild : Table.build page_size = some t0)
    (hfit : 2 * (r.max_string_len * 2 + 8) ≤ page_size)
    (hps : page_size ≤ 2 ^ 63 - 8)
    (hid : r.id = some n) (hn : n < 2 ^ 64)
    (hu : r.username.length < r.max_string_len)
    (he : r.email.length < r.max_string_len)
    (hu0 : 0 ∉ r.username) (he0 : 0 ∉ r.email)
    (huv : isValidUTF8 r.username = true)
    (hev : isValidUTF8 r.email = true) :
    ∃ bytes t1, r.serialise = .ok bytes
      ∧ t0.push bytes = .ok t1
      ∧ t1.get 0 r.max_string_len = .ok (some r) := by
  obtain ⟨rid, u, e, m⟩ := r
  dsimp only at hid hfit hu he hu0 he0 huv hev ⊢
  subst hid
  have hps0 : page_size ≠ 0 := by omega
  unfold Table.build at hbuild
  rw [if_neg hps0] at hbuild
  cases hbuild
  have hBlen : (u ++ (List.replicate (m - u.length) 0 ++ (e
      ++ (List.replicate (m - e.length) 0 ++ natToLE 8 n)))).length
      = m * 2 + 8 :=
    padded_length u e m n (le_of_lt hu) (le_of_lt he)
  refine ⟨u ++ (List.replicate (m - u.length) 0 ++ (e
      ++ (List.replicate (m - e.length) 0 ++ natToLE 8 n))),
    ⟨[⟨(u ++ (List.replicate (m - u.length) 0 ++ (e
        ++ (List.replicate (m - e.length) 0 ++ natToLE 8 n))))
      ++ List.replicate (page_size - (u ++ (List.replicate (m - u.length) 0
        ++ (e ++ (List.replicate (m - e.length) 0
        ++ natToLE 8 n)))).length) 0⟩],
      page_size, 1,
      some (u ++ (List.replicate (m - u.length) 0 ++ (e
        ++ (List.replicate (m - e.length) 0 ++ natToLE 8 n)))).length,
      none⟩, ?_, ?_, ?_⟩
  · exact serialise_eq ⟨some n, u, e, m⟩ n rfl (le_of_lt hu) (le_of_lt he)
  · simp only [Table.push]
    split
    · omega
    · exact pushCore_fresh page_size _ (by omega) (by omega) hps
  · rw [get_zero_single page_size _ m (by omega) (by omega)]
    rw [deserialise_padded u e m n hu he hu0 he0 huv hev]
    simp only [Except.toOption]
    rw [Nat.mod_eq_of_lt hn]

/-- C4 amended witness: `page_size = 24`, `max_string_len = 2` (row
width 12, two rows per page): push then get returns the row. -/
theorem c4_push_get_round_trip_witness :
    ∃ bytes t1, (⟨some 7, [104], [101], 2⟩ : Row).serialise = .ok bytes
      ∧ Table.push ⟨[], 24, 0, none, none⟩ bytes = .ok t1
      ∧ t1.get 0 (⟨some 7, [104], [101], 2⟩ : Row).max_string_len
          = .ok (some ⟨some 7, [104], [101], 2⟩) :=
  c4_push_get_round_trip 24 ⟨[], 24, 0, none, none⟩
    ⟨some 7, [104], [101], 2⟩ 7 (by decide) (by decide) (by norm_num)
    rfl (by norm_num) (by decide) (by decide) (by decide) (by decide)
    (by decide) (by decide)

end SqliteRust

namespace SqliteRust

/-- C7 witness: with `max_string_len = 1`, a 10-byte all-ones buffer has
the right length but no zero terminator in the username field, so
`deserialise` fails with `StringReadError`. -/
theorem c7_deserialise_error_conditions_witness :
    Row.deserialise (List.replicate 10 1) 1 = .error .StringReadError :=
  (c7_deserialise_error_conditions 1).2.1 (List.replicate 10 1) (by decide)
    (Or.inl (by decide))

/-- C10 witness: the all-zero 10-byte buffer deserialises (with
`max_string_len = 1`) to a row whose id is `Some 0`, and serialising
that row cannot fail with `NoContents`. -/
theorem c10_deserialised_id_always_set_witness :
    (⟨some 0, [], [], 1⟩ : Row).id
        = some (natFromLE ((List.replicate 10 0).drop (1 * 2)))
    ∧ ∀ err, (⟨some 0, [], [], 1⟩ : Row).serialise = .error err →
        err ≠ .NoContents :=
  c10_deserialised_id_always_set (List.replicate 10 0) 1 ⟨some 0, [], [], 1⟩
    (by decide)

end SqliteRust
